import Mathlib

/-!
Shallow embedding of the wiki agent's document-index core
(`WikiAgent` in the repository: `getDomainState`, `rebuildIndex`,
`createIndexMeta`, `saveIndex`, `getIndex`, `get`, `put`, `delete`,
`loadDocument`, `saveDocument`, `sanitizeFilename`, `getPermissions`,
and the `handleDocument` route-level validation), together with proofs
about the spec's claims.

Modelling conventions:
* JS strings use `String`; an absent (undefined) string field and the
  empty string are identified, which is exact for every `x || y`
  expression the code applies to them.
* `episteryClient` is `Option String` (the resolved identity address).
* The role oracle `epistery.isListed(address, role)` is a total
  function `String → String → Bool`; the agent's `this.epistery`
  handle is `Option Oracle`.
* Storage is an association list from filename to stored data; a
  stored value is either a parseable document-content JSON, a
  parseable index JSON, or an unparseable blob.  `readFile` of a
  missing key is `none` (the JS promise rejection).
* Fallible operations return `Except String`; the JS code throws
  before performing any storage write in every error case modelled
  here, so an `.error` result carries no successor state.
* Timestamps (`new Date().toISOString()`) are threaded as an opaque
  `now : String` parameter.
-/

namespace Wiki

/-- JS `a || b` on string fields, where `""` stands for both the empty
string and an absent field (both are falsy in JS). -/
def strOr (a b : String) : String := if a = "" then b else a

/-- The role oracle `epistery.isListed(address, roleName)`. -/
abbrev Oracle := String → String → Bool

/-- A JS document object as the agent builds and returns it.  Absent
string fields are `""`; `listed`/`rootmenu` keep the
undefined/true/false distinction the code tests with `!== false` and
`|| false`. -/
structure JsDoc where
  _id : String := ""
  title : String := ""
  body : String := ""
  _pid : String := ""
  visibility : String := ""
  listed : Option Bool := none
  rootmenu : Option Bool := none
  owner : String := ""
  _createdBy : String := ""
  _created : String := ""
  _modified : String := ""
  _modifiedBy : String := ""
  _new : Bool := false
deriving DecidableEq

/-- An index entry as produced by `createIndexMeta`. -/
structure IndexEntry where
  title : String
  _pid : String
  visibility : String
  listed : Bool
  rootmenu : Bool
  owner : String
  _createdBy : String
  _created : String
  _modified : String
  _modifiedBy : String
deriving DecidableEq

/-- What a stored file parses to: a content-shaped JSON document, an
index-shaped JSON document (`{documents, updated}`), or an unparseable
blob (`JSON.parse` throws). -/
inductive FileData where
  | doc (d : JsDoc)
  | idx (documents : List (String × IndexEntry)) (updated : String)
  | bad
deriving DecidableEq

/-- Association-list operations mirroring JS `Map.set` / `Map.get` /
`Map.delete` (set keeps the position of an existing key). -/
def KV.set {α : Type} (l : List (String × α)) (k : String) (v : α) :
    List (String × α) :=
  match l with
  | [] => [(k, v)]
  | p :: t => if p.1 = k then (k, v) :: t else p :: KV.set t k v

def KV.get {α : Type} (l : List (String × α)) (k : String) : Option α :=
  match l with
  | [] => none
  | p :: t => if p.1 = k then some p.2 else KV.get t k

def KV.del {α : Type} (l : List (String × α)) (k : String) :
    List (String × α) :=
  l.filter (fun p => p.1 != k)

/-- The storage backend: a byte store keyed by relative filenames
(`writeFile` / `readFile` / `listFiles` of `StorjStorage` and the
Config-backed wrapper). -/
structure Storage where
  files : List (String × FileData)
deriving DecidableEq

def readFile (s : Storage) (k : String) : Option FileData :=
  KV.get s.files k

def writeFile (s : Storage) (k : String) (v : FileData) : Storage :=
  ⟨KV.set s.files k v⟩

def listFiles (s : Storage) : List String :=
  s.files.map Prod.fst

/-- An out-of-band file deletion (not an agent operation; used to model
the spec scenario of `index.json` being removed externally). -/
def deleteFileOutOfBand (s : Storage) (k : String) : Storage :=
  ⟨KV.del s.files k⟩

/-- `JSON.parse` of a stored file, viewed as a content document: a
doc-shaped file yields its fields, an index-shaped file parses fine but
binds none of the document fields, an unparseable blob throws. -/
def parseContent : FileData → Option JsDoc
  | .doc d => some d
  | .idx _ _ => some {}
  | .bad => none

/-- `sanitizeFilename`: `name.replace(/[^a-zA-Z0-9_-]/g, '_')`. -/
def goodChar (c : Char) : Bool :=
  c.isAlphanum || c = '_' || c = '-'

def sanitizeFilename (name : String) : String :=
  ⟨name.data.map (fun c => if goodChar c then c else '_')⟩

/-- The content filename `doc_<sanitized>.json` used by
`saveDocument` and `loadDocument`. -/
def docFilename (docId : String) : String :=
  "doc_" ++ sanitizeFilename docId ++ ".json"

/-- `filename.match(/^doc_(.+)\.json$/)`: the capture group when the
filename matches, else `none`. -/
def docFileInner (filename : String) : Option String :=
  let cs := filename.data
  if "doc_".data.isPrefixOf cs && ".json".data.isSuffixOf cs &&
      decide (9 < cs.length) then
    some ⟨(cs.drop 4).take (cs.length - 9)⟩
  else none

/-- `inner.replace(/_/g, '')` of `rebuildIndex`: a global replace of
`"_"` by `""`, i.e. removal of every underscore. -/
def stripUnderscores (s : String) : String :=
  ⟨s.data.filter (fun c => c != '_')⟩

/-- The per-domain in-memory state: the bound storage backend and the
index map. -/
structure WikiState where
  storage : Storage
  index : List (String × IndexEntry)
deriving DecidableEq

/-- `createIndexMeta(doc)`, with the implicit `new Date().toISOString()`
passed as `now`. -/
def createIndexMeta (now : String) (doc : JsDoc) : IndexEntry where
  title := strOr doc.title doc._id
  _pid := strOr doc._pid ""
  visibility := strOr doc.visibility "public"
  listed := doc.listed != some false
  rootmenu := doc.rootmenu == some true
  owner := strOr doc.owner (strOr doc._createdBy "unknown")
  _createdBy := strOr doc._createdBy "unknown"
  _created := strOr doc._created now
  _modified := strOr doc._modified (strOr doc._created now)
  _modifiedBy := strOr doc._modifiedBy (strOr doc._createdBy "unknown")

/-- One file of `rebuildIndex`'s scan loop: match `doc_*.json`, derive
the docId with underscores stripped, read and parse, skip (continue) on
read/parse failure, otherwise install `createIndexMeta` and count. -/
def rebuildStep (now : String) (storage : Storage)
    (acc : List (String × IndexEntry) × Nat) (filename : String) :
    List (String × IndexEntry) × Nat :=
  match docFileInner filename with
  | none => acc
  | some inner =>
    let docId := stripUnderscores inner
    match (readFile storage filename).bind parseContent with
    | some c =>
        (KV.set acc.1 docId (createIndexMeta now { c with _id := docId }),
         acc.2 + 1)
    | none => acc

def rebuildScan (now : String) (storage : Storage) (keys : List String)
    (acc : List (String × IndexEntry) × Nat) :
    List (String × IndexEntry) × Nat :=
  keys.foldl (rebuildStep now storage) acc

/-- `rebuildIndex(storage, index)`: scan every listed file, then save
the rebuilt index only when `rebuilt > 0`.  Returns the new index and
the (possibly updated) storage. -/
def rebuildIndex (now : String) (storage : Storage)
    (index0 : List (String × IndexEntry)) :
    List (String × IndexEntry) × Storage :=
  let r := rebuildScan now storage (listFiles storage) (index0, 0)
  if 0 < r.2 then
    (r.1, writeFile storage "index.json" (.idx r.1 now))
  else
    (r.1, storage)

/-- `getDomainState`'s index-loading step for a fresh domain: load
`index.json`; on a missing or unparseable file rebuild from the content
files; a parseable file without a `documents` field loads nothing. -/
def loadState (now : String) (storage : Storage) : WikiState :=
  match readFile storage "index.json" with
  | some (.idx documents _) => ⟨storage, documents⟩
  | some (.doc _) => ⟨storage, []⟩
  | some .bad =>
      let r := rebuildIndex now storage []
      ⟨r.2, r.1⟩
  | none =>
      let r := rebuildIndex now storage []
      ⟨r.2, r.1⟩

/-- The `{admin, edit, read}` result of `getPermissions`. -/
structure Permissions where
  admin : Bool
  edit : Bool
  read : Bool
deriving DecidableEq

/-- `getPermissions(req)`: read is always granted; edit and admin are
granted exactly when the oracle lists the identity on
`epistery::admin`, and denied when there is no resolved identity or no
epistery handle. -/
def getPermissions (client : Option String) (epistery : Option Oracle) :
    Permissions :=
  match client, epistery with
  | some addr, some oracle =>
      let isAdmin := oracle addr "epistery::admin"
      { admin := isAdmin, edit := isAdmin, read := true }
  | _, _ => { admin := false, edit := false, read := true }

/-- `loadDocument(docId, wikiState)`: read and parse
`doc_<sanitized>.json`; `none` models the thrown `Document not found`. -/
def loadDocument (docId : String) (st : WikiState) : Option JsDoc :=
  (readFile st.storage (docFilename docId)).bind parseContent

/-- The `{_id: docId, ...meta, ...content}` merge of `get`: content
fields override index-entry fields; fields only the entry has come from
the entry. -/
def mergeDoc (docId : String) (meta : IndexEntry) (content : JsDoc) :
    JsDoc where
  _id := docId
  title := strOr content.title meta.title
  body := content.body
  _pid := strOr content._pid meta._pid
  visibility := strOr content.visibility meta.visibility
  listed := some (content.listed.getD meta.listed)
  rootmenu := some (content.rootmenu.getD meta.rootmenu)
  owner := strOr content.owner meta.owner
  _createdBy := strOr content._createdBy meta._createdBy
  _created := strOr content._created meta._created
  _modified := strOr content._modified meta._modified
  _modifiedBy := strOr content._modifiedBy meta._modifiedBy
  _new := content._new

/-- The `_new: true` template `get` returns for a docId with no index
entry. -/
def placeholderDoc (docId optPid : String) : JsDoc :=
  { _id := docId, title := docId, body := "# " ++ docId ++ "\n",
    _pid := strOr optPid "", visibility := "public", _new := true }

/-- `get(episteryClient, docId, options, wikiState)`.  `getM` never
mutates the state; its only outputs are the result (`some` document,
`none` for a null result) or a thrown error. -/
def getM (client : Option String) (docId0 optPid : String)
    (st : WikiState) (rootDoc : String) : Except String (Option JsDoc) :=
  let docId := if docId0 = "" then rootDoc else docId0
  match client with
  | none => .error "Authentication required"
  | some addr =>
    match KV.get st.index docId with
    | none => .ok (some (placeholderDoc docId optPid))
    | some meta =>
      if meta.visibility ≠ "public" ∧ addr ≠ meta.owner then
        .ok none
      else
        match loadDocument docId st with
        | some content => .ok (some (mergeDoc docId meta content))
        | none => .ok none

/-- The merged document `put` prepares:
owner/createdBy/created carried from any prior entry with `||`
fallback to the caller / `now`; modified/modifiedBy always the caller
and `now`. -/
def prepDoc (addr docId optPid now : String) (b : JsDoc)
    (existing : Option IndexEntry) : JsDoc where
  _id := docId
  title := strOr b.title docId
  body := strOr b.body ""
  _pid := strOr b._pid (strOr optPid "")
  visibility := strOr b.visibility "public"
  listed := some (b.listed != some false)
  rootmenu := some (b.rootmenu == some true)
  owner := strOr (match existing with
    | some m => m.owner
    | none => "") addr
  _createdBy := strOr (match existing with
    | some m => m._createdBy
    | none => "") addr
  _created := strOr (match existing with
    | some m => m._created
    | none => "") now
  _modified := now
  _modifiedBy := addr

/-- The `{title, body, _pid}` projection `saveDocument` writes to the
content file. -/
def contentOf (doc : JsDoc) : JsDoc :=
  { title := doc.title, body := doc.body, _pid := doc._pid }

/-- `put(episteryClient, docId, options, body, wikiState)`: validate,
prepare the merged document, write the content file, update the index
entry, persist the index (`saveIndex`), return the document. -/
def putM (client : Option String) (docId optPid : String) (b : JsDoc)
    (now : String) (st : WikiState) :
    Except String (JsDoc × WikiState) :=
  if docId = "" then .error "Document ID is required"
  else
    match client with
    | none => .error "Authentication required"
    | some addr =>
      let doc := prepDoc addr docId optPid now b (KV.get st.index docId)
      let storage1 :=
        writeFile st.storage (docFilename docId) (.doc (contentOf doc))
      let index1 := KV.set st.index docId (createIndexMeta now doc)
      let storage2 := writeFile storage1 "index.json" (.idx index1 now)
      .ok (doc, ⟨storage2, index1⟩)

/-- `delete(episteryClient, docId, wikiState)`: requires an existing
entry and the `epistery::admin` role; removes the entry and persists
the index.  Every `.error` is raised before any mutation, so an error
result leaves the state untouched. -/
def deleteM (client : Option String) (epistery : Option Oracle)
    (docId now : String) (st : WikiState) :
    Except String (String × WikiState) :=
  if docId = "" then .error "Document ID is required"
  else
    match client with
    | none => .error "Authentication required"
    | some addr =>
      match KV.get st.index docId with
      | none => .error "Document not found"
      | some _ =>
        let isAdmin := match epistery with
          | some oracle => oracle addr "epistery::admin"
          | none => false
        if isAdmin then
          let index1 := KV.del st.index docId
          let storage1 := writeFile st.storage "index.json" (.idx index1 now)
          .ok (docId, ⟨storage1, index1⟩)
        else .error "Only epistery::admin can delete documents"

/-- One row of the `/index` listing. -/
structure Listing where
  _id : String
  title : String
  _pid : String
  listed : Bool
  rootmenu : Bool
  visibility : String
  _modified : String
deriving DecidableEq

def toListing (docId : String) (meta : IndexEntry) : Listing :=
  { _id := docId, title := meta.title, _pid := meta._pid,
    listed := meta.listed, rootmenu := meta.rootmenu,
    visibility := meta.visibility, _modified := meta._modified }

/-- Lexicographic comparison standing in for
`a._id.localeCompare(b._id)` (the sort order itself is immaterial to
the claims; only membership is used). -/
def charsLe : List Char → List Char → Bool
  | [], _ => true
  | _ :: _, [] => false
  | a :: as, b :: bs => if a = b then charsLe as bs else decide (a < b)

def strLe (a b : String) : Bool := charsLe a.data b.data

def insertListing (x : Listing) : List Listing → List Listing
  | [] => [x]
  | y :: t => if strLe x._id y._id then x :: y :: t else y :: insertListing x t

def sortListings : List Listing → List Listing
  | [] => []
  | x :: t => insertListing x (sortListings t)

/-- `getIndex(episteryClient, wikiState)`: requires an identity,
filters entries to public ones plus the caller's own, and sorts by id. -/
def getIndexM (client : Option String) (st : WikiState) :
    Except String (List Listing) :=
  match client with
  | none => .error "Authentication required"
  | some addr =>
    .ok (sortListings (st.index.filterMap (fun p =>
      if p.2.visibility = "public" ∨ addr = p.2.owner then
        some (toListing p.1 p.2)
      else none)))

/-- The `handleDocument` docId check `/^[A-Za-z0-9_]{3,}$/`. -/
def validDocId (docId : String) : Bool :=
  decide (3 ≤ docId.length) && docId.data.all (fun c => c.isAlphanum || c = '_')

/-- The POST/PUT branch of `handleDocument`: defaults an absent docId
to the root document, requires edit permission, rejects an invalid
docId before calling `put`.  An `.error` result is produced before any
storage call, so it leaves storage and index untouched. -/
def handlePut (client : Option String) (epistery : Option Oracle)
    (docId0 optPid : String) (b : JsDoc) (now : String) (st : WikiState)
    (rootDoc : String) : Except String (JsDoc × WikiState) :=
  let docId := if docId0 = "" then rootDoc else docId0
  let perms := getPermissions client epistery
  if perms.edit then
    if validDocId docId then putM client docId optPid b now st
    else .error "Invalid document ID"
  else .error "Permission required"

/-- Repeated `put`s of the same docId by a sequence of
(identity, timestamp, body) triples; a failing put (impossible for a
nonempty docId and a present identity) leaves the state unchanged. -/
def putList (docId optPid : String)
    (ops : List (String × String × JsDoc)) (st : WikiState) : WikiState :=
  ops.foldl (fun s op =>
    match putM (some op.1) docId optPid op.2.2 op.2.1 s with
    | .ok r => r.2
    | .error _ => s) st

/-- `"no adjacent dot pair"`: `true` iff the character list never
contains `".."` as a substring. -/
def noDotDot : List Char → Bool
  | a :: b :: rest =>
      if a = '.' && b = '.' then false else noDotDot (b :: rest)
  | _ => true

/-! Concrete scenario values used by the claim theorems and their
witnesses. -/

def emptyState : WikiState := ⟨⟨[]⟩, []⟩

/-- A concrete `put` of docId `my_doc` (a docId the route validation
accepts) into an empty domain. -/
def c2Put : Except String (JsDoc × WikiState) :=
  putM (some "0xA") "my_doc" "" {title := "My Doc", body := "hello"} "T1" emptyState

def c2State : WikiState :=
  match c2Put with
  | .ok r => r.2
  | .error _ => emptyState

/-- The state loaded after `index.json` is deleted out-of-band: the
load falls back to `rebuildIndex`. -/
def c2Rebuilt : WikiState :=
  loadState "T2" (deleteFileOutOfBand c2State.storage "index.json")

/-- A concrete public index entry owned by `0xA`. -/
def infoMeta : IndexEntry :=
  { title := "Info", _pid := "", visibility := "public", listed := true,
    rootmenu := false, owner := "0xA", _createdBy := "0xA",
    _created := "T0", _modified := "T0", _modifiedBy := "0xA" }

/-- A concrete private index entry owned by `0xA`. -/
def secretMeta : IndexEntry :=
  { infoMeta with title := "Secret", visibility := "private" }

/-- A concrete domain state holding a public document `Info` (with its
content file) and a private document `Secret`. -/
def demoState : WikiState :=
  ⟨⟨[("doc_Info.json", .doc { title := "Info", body := "public body" }),
     ("doc_Secret.json", .doc { title := "Secret", body := "secret body" }),
     ("index.json", .idx [("Info", infoMeta), ("Secret", secretMeta)] "T0")]⟩,
   [("Info", infoMeta), ("Secret", secretMeta)]⟩

/-- An oracle listing only `0xEd` and only on `epistery::editor`. -/
def editorOnlyOracle : Oracle :=
  fun addr role => addr == "0xEd" && role == "epistery::editor"

/-- An oracle listing only `0xAdm` on `epistery::admin`. -/
def adminOracle : Oracle :=
  fun addr role => addr == "0xAdm" && role == "epistery::admin"

/-- A storage whose only file is an unparseable `doc_bad.json`. -/
def badOnlyStorage : Storage := ⟨[("doc_bad.json", FileData.bad)]⟩

/-- A storage with one good content file and one unparseable one. -/
def mixedStorage : Storage :=
  ⟨[("doc_bad.json", FileData.bad),
    ("doc_Good.json", .doc { title := "Good", body := "ok" })]⟩

/-! Helper lemmas. -/

theorem strOr_empty_right (a : String) : strOr a "" = a := by
  unfold strOr; split <;> simp_all

theorem strOr_of_ne (a b : String) (h : a ≠ "") : strOr a b = a := by
  unfold strOr; simp [h]

theorem strOr_ne_empty (a b : String) (hb : b ≠ "") : strOr a b ≠ "" := by
  unfold strOr; split <;> simp_all

theorem KV.get_set_self {α : Type} (l : List (String × α)) (k : String) (v : α) :
    KV.get (KV.set l k v) k = some v := by
  induction l with
  | nil => simp [KV.set, KV.get]
  | cons p t ih =>
    by_cases hp : p.1 = k
    · simp [KV.set, hp, KV.get]
    · simp [KV.set, hp, KV.get, ih]

theorem KV.get_set_ne {α : Type} (l : List (String × α)) (k k' : String) (v : α)
    (h : k' ≠ k) : KV.get (KV.set l k v) k' = KV.get l k' := by
  have h' : ¬ k = k' := fun e => h e.symm
  induction l with
  | nil => simp [KV.set, KV.get, h']
  | cons p t ih =>
    by_cases hp : p.1 = k
    · subst hp
      simp [KV.set, KV.get, h']
    · simp only [KV.set, if_neg hp, KV.get]
      by_cases hp' : p.1 = k'
      · simp [hp']
      · simp [hp', ih]

theorem KV.get_del_self {α : Type} (l : List (String × α)) (k : String) :
    KV.get (KV.del l k) k = none := by
  induction l with
  | nil => simp [KV.del, KV.get]
  | cons p t ih =>
    by_cases hp : p.1 = k
    · have hb : (p.1 != k) = false := by simp [hp]
      simpa [KV.del, List.filter_cons, hb] using ih
    · have hb : (p.1 != k) = true := by simp [hp]
      simpa [KV.del, List.filter_cons, hb, KV.get, hp] using ih

theorem KV.fst_ne_of_mem_del {α : Type} (l : List (String × α)) (k : String)
    (p : String × α) (hp : p ∈ KV.del l k) : p.1 ≠ k := by
  have := List.of_mem_filter hp
  simpa using this

theorem docFilename_ne_index (s : String) : docFilename s ≠ "index.json" := by
  intro h
  have h2 : (("doc_" ++ sanitizeFilename s) ++ ".json").data = "index.json".data :=
    congrArg String.data h
  rw [String.data_append, String.data_append] at h2
  have hd : "doc_".data = ['d', 'o', 'c', '_'] := rfl
  have hi : "index.json".data = ['i', 'n', 'd', 'e', 'x', '.', 'j', 's', 'o', 'n'] := rfl
  rw [hd, hi] at h2
  simp at h2

theorem mem_insertListing (x y : Listing) (l : List Listing) :
    x ∈ insertListing y l ↔ x = y ∨ x ∈ l := by
  induction l with
  | nil => simp [insertListing]
  | cons z t ih =>
    by_cases h : strLe y._id z._id
    · simp [insertListing, h]
    · simp [insertListing, h, ih]
      tauto

theorem mem_sortListings (x : Listing) (l : List Listing) :
    x ∈ sortListings l ↔ x ∈ l := by
  induction l with
  | nil => simp [sortListings]
  | cons y t ih =>
    simp [sortListings, mem_insertListing, ih]

theorem validDocId_ne_empty (docId : String) (h : validDocId docId = true) :
    docId ≠ "" := by
  intro he
  rw [he] at h
  exact absurd h (by decide)


/-- C8: for a docId with no index entry, `get` returns the non-persisted
placeholder with `_id`/`title` equal to the docId, body `# <docId>\n`,
public visibility, `_new: true`, and `_pid` seeded from the caller's
continuation hint.  `getM` takes no state to a successor state, so the
index is left unchanged by construction. -/
theorem C8_get_placeholder (addr docId optPid : String) (st : WikiState)
    (hd : docId ≠ "") (hnone : KV.get st.index docId = none) :
    getM (some addr) docId optPid st "Home" =
      .ok (some { _id := docId, title := docId, body := "# " ++ docId ++ "\n",
                  _pid := optPid, visibility := "public", _new := true }) := by
  unfold getM
  simp [hd, hnone, placeholderDoc, strOr_empty_right]

/-- Witness for C8 at a concrete state and docId. -/
theorem C8_witness :
    getM (some "0xA") "NewPage" "Parent" demoState "Home" =
      .ok (some { _id := "NewPage", title := "NewPage", body := "# NewPage\n",
                  _pid := "Parent", visibility := "public", _new := true }) := by
  have h := C8_get_placeholder "0xA" "NewPage" "Parent" demoState (by decide) (by decide)
  simpa using h

theorem goodChar_ne (c : Char) (h : goodChar c = true) : c ≠ '/' ∧ c ≠ '.' := by
  constructor <;> intro e <;> subst e <;> revert h <;> decide

theorem noDotDot_cons (a : Char) (l : List Char) (ha : ¬ a = '.') :
    noDotDot (a :: l) = noDotDot l := by
  cases l with
  | nil => simp [noDotDot]
  | cons b t => simp [noDotDot, ha]

theorem sanitize_all_good (s : String) :
    (sanitizeFilename s).data.all goodChar = true := by
  show (s.data.map fun c => if goodChar c then c else '_').all goodChar = true
  rw [List.all_eq_true]
  intro c hc
  rw [List.mem_map] at hc
  obtain ⟨a, _, rfl⟩ := hc
  by_cases h : goodChar a = true
  · simp [h]
  · simp [h]
    decide

theorem docFilename_data (s : String) :
    (docFilename s).data = 'd' :: 'o' :: 'c' :: '_' ::
      ((sanitizeFilename s).data ++ ['.', 'j', 's', 'o', 'n']) := by
  show (("doc_" ++ sanitizeFilename s) ++ ".json").data = _
  rw [String.data_append, String.data_append]
  simp

theorem noDotDot_mid (mid : List Char) (h : mid.all goodChar = true) :
    noDotDot (mid ++ ['.', 'j', 's', 'o', 'n']) = true := by
  induction mid with
  | nil => decide
  | cons c t ih =>
    rw [List.all_cons, Bool.and_eq_true] at h
    have hne : ¬ c = '.' := (goodChar_ne c h.1).2
    rw [List.cons_append, noDotDot_cons _ _ hne]
    exact ih h.2

/-- C10: `sanitizeFilename` emits only characters from
`[A-Za-z0-9_-]`, and the derived filename `doc_<sanitized>.json`
contains no path separator and no `..` traversal sequence. -/
theorem C10_sanitize_safe (s : String) :
    (sanitizeFilename s).data.all goodChar = true ∧
    (docFilename s).data.all (fun c => c != '/') = true ∧
    noDotDot (docFilename s).data = true := by
  refine ⟨sanitize_all_good s, ?_, ?_⟩
  · rw [docFilename_data, List.all_cons, List.all_cons, List.all_cons, List.all_cons,
      List.all_append]
    have hmid : ((sanitizeFilename s).data.all (fun c => c != '/')) = true := by
      rw [List.all_eq_true]
      intro c hc
      have hg : goodChar c = true := by
        have := sanitize_all_good s
        rw [List.all_eq_true] at this
        exact this c hc
      simpa using (goodChar_ne c hg).1
    simp [hmid]
  · rw [docFilename_data]
    rw [noDotDot_cons _ _ (by decide), noDotDot_cons _ _ (by decide),
      noDotDot_cons _ _ (by decide), noDotDot_cons _ _ (by decide)]
    exact noDotDot_mid _ (sanitize_all_good s)



theorem strOr_empty_left (b : String) : strOr "" b = b := rfl

theorem putM_ok (addr docId optPid now : String) (b : JsDoc) (st : WikiState)
    (hd : docId ≠ "") :
    putM (some addr) docId optPid b now st =
      .ok (prepDoc addr docId optPid now b (KV.get st.index docId),
        ⟨writeFile (writeFile st.storage (docFilename docId)
            (.doc (contentOf (prepDoc addr docId optPid now b (KV.get st.index docId)))))
          "index.json"
          (.idx (KV.set st.index docId
            (createIndexMeta now (prepDoc addr docId optPid now b (KV.get st.index docId)))) now),
         KV.set st.index docId
           (createIndexMeta now (prepDoc addr docId optPid now b (KV.get st.index docId)))⟩) := by
  unfold putM
  rw [if_neg hd]

/-- C2 (failing-input evaluation): after `put` of docId `my_doc` and an
out-of-band deletion of `index.json`, the next load does rebuild and the
rebuilt entry has the title from the content file, default owner
`unknown` and default public visibility — but it is indexed under
`mydoc`, not the original docId `my_doc` (the rebuild strips
underscores from the filename-derived id), and a `get` of `my_doc` now
returns a fresh `_new` placeholder instead of the stored document. -/
theorem C2_rebuild_mangles_docId :
    c2Put = .ok (prepDoc "0xA" "my_doc" "" "T1" {title := "My Doc", body := "hello"} none, c2State) ∧
    KV.get c2Rebuilt.index "my_doc" = none ∧
    (KV.get c2Rebuilt.index "mydoc").map (fun m => (m.title, m.owner, m.visibility)) =
      some ("My Doc", "unknown", "public") ∧
    getM (some "0xA") "my_doc" "" c2Rebuilt "Home" = .ok (some (placeholderDoc "my_doc" "")) :=
  ⟨rfl, rfl, rfl, rfl⟩

/-- C3 counterexample: `Info` has a public index entry, yet `get` with
no identity at all throws `Authentication required` instead of
succeeding, refuting the claim's "including no identity at all". -/
theorem C3_counterexample :
    KV.get demoState.index "Info" = some infoMeta ∧
    infoMeta.visibility = "public" ∧
    getM none "Info" "" demoState "Home" = .error "Authentication required" :=
  ⟨rfl, rfl, rfl⟩

/-- C3 (amended): for an existing entry, a non-public entry read by an
authenticated non-owner yields null (`.ok none`, not an error); a
public entry whose content file is readable yields the merged document
for any authenticated identity; and a `get` with no identity throws
`Authentication required` regardless of the entry. -/
theorem C3_read_visibility (addr optPid docId : String) (st : WikiState)
    (m : IndexEntry) (hd : docId ≠ "") (hm : KV.get st.index docId = some m) :
    (m.visibility ≠ "public" → addr ≠ m.owner →
      getM (some addr) docId optPid st "Home" = .ok none)
    ∧ (m.visibility = "public" → ∀ c, loadDocument docId st = some c →
        getM (some addr) docId optPid st "Home" = .ok (some (mergeDoc docId m c)))
    ∧ getM none docId optPid st "Home" = .error "Authentication required" := by
  refine ⟨?_, ?_, ?_⟩
  · intro hv ho
    unfold getM
    simp only [if_neg hd, hm]
    rw [if_pos ⟨hv, ho⟩]
  · intro hv c hc
    unfold getM
    simp only [if_neg hd, hm]
    have hcond : ¬ (m.visibility ≠ "public" ∧ addr ≠ m.owner) := fun h => h.1 hv
    rw [if_neg hcond]
    simp only [hc]
  · rfl

/-- Witness for C3 at the concrete `demoState`. -/
theorem C3_read_visibility_witness :
    getM (some "0xB") "Secret" "" demoState "Home" = .ok none ∧
    getM (some "0xB") "Info" "" demoState "Home" =
      .ok (some (mergeDoc "Info" infoMeta { title := "Info", body := "public body" })) ∧
    getM none "Secret" "" demoState "Home" = .error "Authentication required" := by
  obtain ⟨h1, _, h3⟩ :=
    C3_read_visibility "0xB" "" "Secret" demoState secretMeta (by decide) (by decide)
  obtain ⟨_, g2, _⟩ :=
    C3_read_visibility "0xB" "" "Info" demoState infoMeta (by decide) (by decide)
  exact ⟨h1 (by decide) (by decide),
    g2 (by decide) { title := "Info", body := "public body" } (by decide), h3⟩

/-- C7: the route-level put rejects — returning an error and therefore
performing no content write and no index mutation (an `.error` result
of this embedding is produced before any storage call) — whenever the
identity is absent or the docId fails the `[A-Za-z0-9_]{3,}` check. -/
theorem C7_put_validation (client : Option String) (epistery : Option Oracle)
    (docId optPid now : String) (b : JsDoc) (st : WikiState)
    (h : client = none ∨ (docId ≠ "" ∧ validDocId docId = false)) :
    handlePut client epistery docId optPid b now st "Home" = .error "Permission required" ∨
    handlePut client epistery docId optPid b now st "Home" = .error "Invalid document ID" := by
  rcases h with hc | ⟨hd, hv⟩
  · subst hc
    left
    unfold handlePut
    cases epistery with
    | none => rfl
    | some oracle => rfl
  · unfold handlePut
    simp only [if_neg hd]
    cases hedit : (getPermissions client epistery).edit
    · left
      simp [hedit]
    · right
      simp [hedit, hv]

/-- Witness for C7: an admin identity putting the malformed docId
`a!`. -/
theorem C7_put_validation_witness :
    handlePut (some "0xAdm") (some adminOracle) "a!" "" ({} : JsDoc) "T" demoState "Home" =
      .error "Permission required" ∨
    handlePut (some "0xAdm") (some adminOracle) "a!" "" ({} : JsDoc) "T" demoState "Home" =
      .error "Invalid document ID" :=
  C7_put_validation (some "0xAdm") (some adminOracle) "a!" "" "T" ({} : JsDoc) demoState
    (Or.inr ⟨by decide, by decide⟩)


/-- C4: for an existing entry, delete by an identity the oracle does
not list as `epistery::admin` fails with the Forbidden error (the model
errors before constructing any successor state, mirroring the JS throw
before any mutation); delete by an admin identity succeeds, removes the
entry, persists the index to `index.json`, and the subsequent index
listing contains no row for the docId. -/
theorem C4_delete_admin_gate (addr raddr docId now : String) (oracle : Oracle)
    (st : WikiState) (m : IndexEntry)
    (hd : docId ≠ "") (hm : KV.get st.index docId = some m) :
    (oracle addr "epistery::admin" = false →
      deleteM (some addr) (some oracle) docId now st =
        .error "Only epistery::admin can delete documents")
    ∧ (oracle addr "epistery::admin" = true →
      ∃ st', deleteM (some addr) (some oracle) docId now st = .ok (docId, st')
        ∧ KV.get st'.index docId = none
        ∧ readFile st'.storage "index.json" = some (.idx st'.index now)
        ∧ ∀ listings, getIndexM (some raddr) st' = .ok listings →
            ∀ x ∈ listings, x._id ≠ docId) := by
  constructor
  · intro hno
    unfold deleteM
    simp only [if_neg hd, hm, hno]
    rfl
  · intro hyes
    refine ⟨⟨writeFile st.storage "index.json" (.idx (KV.del st.index docId) now),
      KV.del st.index docId⟩, ?_, ?_, ?_, ?_⟩
    · unfold deleteM
      simp only [if_neg hd, hm, hyes]
      rfl
    · exact KV.get_del_self _ _
    · exact KV.get_set_self _ _ _
    · intro listings hl x hx
      unfold getIndexM at hl
      simp only [Except.ok.injEq] at hl
      subst hl
      rw [mem_sortListings, List.mem_filterMap] at hx
      obtain ⟨p, hpmem, hpx⟩ := hx
      by_cases hc : p.2.visibility = "public" ∨ raddr = p.2.owner
      · rw [if_pos hc] at hpx
        have hx1 : toListing p.1 p.2 = x := Option.some.inj hpx
        have hxid : x._id = p.1 := by
          rw [← hx1]
          rfl
        rw [hxid]
        exact KV.fst_ne_of_mem_del _ _ _ hpmem
      · rw [if_neg hc] at hpx
        exact absurd hpx (by simp)

/-- Witness for C4 at the concrete `demoState` with `adminOracle`. -/
theorem C4_delete_admin_gate_witness :
    deleteM (some "0xB") (some adminOracle) "Info" "T3" demoState =
      .error "Only epistery::admin can delete documents" ∧
    ∃ st', deleteM (some "0xAdm") (some adminOracle) "Info" "T3" demoState = .ok ("Info", st')
      ∧ KV.get st'.index "Info" = none
      ∧ readFile st'.storage "index.json" = some (.idx st'.index "T3")
      ∧ ∀ listings, getIndexM (some "0xB") st' = .ok listings →
          ∀ x ∈ listings, x._id ≠ "Info" := by
  constructor
  · exact (C4_delete_admin_gate "0xB" "0xB" "Info" "T3" adminOracle demoState infoMeta
      (by decide) (by decide)).1 (by decide)
  · exact (C4_delete_admin_gate "0xAdm" "0xB" "Info" "T3" adminOracle demoState infoMeta
      (by decide) (by decide)).2 (by decide)


theorem putList_cons (docId optPid : String) (op : String × String × JsDoc)
    (rest : List (String × String × JsDoc)) (st : WikiState) :
    putList docId optPid (op :: rest) st =
      putList docId optPid rest
        (match putM (some op.1) docId optPid op.2.2 op.2.1 st with
         | .ok r => r.2
         | .error _ => st) := rfl

theorem putStep_owner (docId optPid addr now : String) (b : JsDoc) (st : WikiState)
    (m : IndexEntry) (hd : docId ≠ "") (hm : KV.get st.index docId = some m)
    (how : m.owner ≠ "") :
    ∃ m', KV.get (match putM (some addr) docId optPid b now st with
      | .ok r => r.2
      | .error _ => st).index docId = some m' ∧ m'.owner = m.owner := by
  rw [putM_ok addr docId optPid now b st hd]
  refine ⟨_, KV.get_set_self _ _ _, ?_⟩
  show strOr (prepDoc addr docId optPid now b (KV.get st.index docId)).owner
      (strOr (prepDoc addr docId optPid now b (KV.get st.index docId))._createdBy "unknown") =
    m.owner
  have h1 : (prepDoc addr docId optPid now b (KV.get st.index docId)).owner = m.owner := by
    show strOr (match KV.get st.index docId with
      | some mm => mm.owner
      | none => "") addr = m.owner
    rw [hm]
    exact strOr_of_ne _ _ how
  rw [h1]
  exact strOr_of_ne _ _ how

theorem putList_owner (docId optPid : String) (hd : docId ≠ "") :
    ∀ (ops : List (String × String × JsDoc)) (st : WikiState) (m : IndexEntry),
      KV.get st.index docId = some m → m.owner ≠ "" →
      ∃ m', KV.get (putList docId optPid ops st).index docId = some m' ∧
        m'.owner = m.owner := by
  intro ops
  induction ops with
  | nil => exact fun st m hm _ => ⟨m, hm, rfl⟩
  | cons op rest ih =>
    intro st m hm how
    rw [putList_cons]
    obtain ⟨m1, hm1, ho1⟩ := putStep_owner docId optPid op.1 op.2.1 op.2.2 st m hd hm how
    obtain ⟨m', hm', ho'⟩ := ih _ m1 hm1 (by rw [ho1]; exact how)
    exact ⟨m', hm', by rw [ho', ho1]⟩

/-- C5: a put over an existing entry carries `owner`, `_createdBy` and
`_created` forward unchanged (their stored values being nonempty, as
every entry the agent writes has) and stamps `_modified`/`_modifiedBy`
with the current time and the calling identity; and over any sequence
of puts on a fresh docId, the owner is the first writer's address and
is never blanked afterwards. -/
theorem C5_owner_carry :
    (∀ (addr now docId optPid : String) (b : JsDoc) (st : WikiState) (m : IndexEntry),
      docId ≠ "" → addr ≠ "" → now ≠ "" →
      KV.get st.index docId = some m →
      m.owner ≠ "" → m._createdBy ≠ "" → m._created ≠ "" →
      ∃ d st', putM (some addr) docId optPid b now st = .ok (d, st') ∧
        ∃ m', KV.get st'.index docId = some m' ∧
          m'.owner = m.owner ∧ m'._createdBy = m._createdBy ∧
          m'._created = m._created ∧ m'._modified = now ∧ m'._modifiedBy = addr)
    ∧ (∀ (docId optPid addr now : String) (b : JsDoc)
        (rest : List (String × String × JsDoc)) (st : WikiState),
      docId ≠ "" → addr ≠ "" →
      KV.get st.index docId = none →
      ∃ m', KV.get (putList docId optPid ((addr, now, b) :: rest) st).index docId =
          some m' ∧ m'.owner = addr) := by
  constructor
  · intro addr now docId optPid b st m hd ha hn hm how hcb hcr
    refine ⟨_, _, putM_ok addr docId optPid now b st hd, ?_⟩
    rw [hm]
    have h1 : (prepDoc addr docId optPid now b (some m)).owner = m.owner :=
      strOr_of_ne _ _ how
    have h2 : (prepDoc addr docId optPid now b (some m))._createdBy = m._createdBy :=
      strOr_of_ne _ _ hcb
    have h3 : (prepDoc addr docId optPid now b (some m))._created = m._created :=
      strOr_of_ne _ _ hcr
    have h4 : (prepDoc addr docId optPid now b (some m))._modified = now := rfl
    have h5 : (prepDoc addr docId optPid now b (some m))._modifiedBy = addr := rfl
    refine ⟨_, KV.get_set_self _ _ _, ?_, ?_, ?_, ?_, ?_⟩
    · show strOr (prepDoc addr docId optPid now b (some m)).owner
        (strOr (prepDoc addr docId optPid now b (some m))._createdBy "unknown") = m.owner
      rw [h1]
      exact strOr_of_ne _ _ how
    · show strOr (prepDoc addr docId optPid now b (some m))._createdBy "unknown" =
        m._createdBy
      rw [h2]
      exact strOr_of_ne _ _ hcb
    · show strOr (prepDoc addr docId optPid now b (some m))._created now = m._created
      rw [h3]
      exact strOr_of_ne _ _ hcr
    · show strOr (prepDoc addr docId optPid now b (some m))._modified
        (strOr (prepDoc addr docId optPid now b (some m))._created now) = now
      rw [h4]
      exact strOr_of_ne _ _ hn
    · show strOr (prepDoc addr docId optPid now b (some m))._modifiedBy
        (strOr (prepDoc addr docId optPid now b (some m))._createdBy "unknown") = addr
      rw [h5]
      exact strOr_of_ne _ _ ha
  · intro docId optPid addr now b rest st hd ha hnone
    rw [putList_cons]
    obtain ⟨m1, hm1, ho1⟩ : ∃ m1,
        KV.get (match putM (some addr) docId optPid b now st with
          | .ok r => r.2
          | .error _ => st).index docId = some m1 ∧ m1.owner = addr := by
      rw [putM_ok addr docId optPid now b st hd]
      refine ⟨_, KV.get_set_self _ _ _, ?_⟩
      show strOr (prepDoc addr docId optPid now b (KV.get st.index docId)).owner
          (strOr (prepDoc addr docId optPid now b (KV.get st.index docId))._createdBy
            "unknown") = addr
      have h1 : (prepDoc addr docId optPid now b (KV.get st.index docId)).owner = addr := by
        show strOr (match KV.get st.index docId with
          | some mm => mm.owner
          | none => "") addr = addr
        rw [hnone]
        exact strOr_empty_left addr
      rw [h1]
      exact strOr_of_ne _ _ ha
    obtain ⟨m', hm', ho'⟩ := putList_owner docId optPid hd rest _ m1 hm1 (by rw [ho1]; exact ha)
    exact ⟨m', hm', by rw [ho', ho1]⟩


/-- Witness for C5: a concrete overwrite of `Info` and a concrete
two-writer sequence on a fresh docId. -/
theorem C5_owner_carry_witness :
    (∃ d st', putM (some "0xB") "Info" "" ({} : JsDoc) "T5" demoState = .ok (d, st') ∧
      ∃ m', KV.get st'.index "Info" = some m' ∧
        m'.owner = infoMeta.owner ∧ m'._createdBy = infoMeta._createdBy ∧
        m'._created = infoMeta._created ∧ m'._modified = "T5" ∧ m'._modifiedBy = "0xB") ∧
    (∃ m', KV.get (putList "Page2" ""
        [("0xA", "T1", ({} : JsDoc)), ("0xB", "T2", ({} : JsDoc))] emptyState).index
        "Page2" = some m' ∧ m'.owner = "0xA") := by
  constructor
  · exact C5_owner_carry.1 "0xB" "T5" "Info" "" ({} : JsDoc) demoState infoMeta
      (by decide) (by decide) (by decide) (by decide) (by decide) (by decide) (by decide)
  · exact C5_owner_carry.2 "Page2" "" "0xA" "T1" ({} : JsDoc)
      [("0xB", "T2", ({} : JsDoc))] emptyState (by decide) (by decide) (by decide)

/-- C6 counterexample: rebuilding a storage whose only content file is
unparseable completes (the bad file is skipped) but persists nothing —
no `index.json` is written, refuting the claim's unconditional
"persisted to storage immediately". -/
theorem C6_counterexample :
    (rebuildIndex "T" badOnlyStorage []).1 = [] ∧
    (rebuildIndex "T" badOnlyStorage []).2 = badOnlyStorage ∧
    readFile (rebuildIndex "T" badOnlyStorage []).2 "index.json" = none := by
  decide

theorem rebuildStep_skip (now : String) (storage : Storage) (f : String)
    (acc : List (String × IndexEntry) × Nat)
    (h : (readFile storage f).bind parseContent = none) :
    rebuildStep now storage acc f = acc := by
  unfold rebuildStep
  cases hdi : docFileInner f
  · rfl
  · simp [h]

/-- C6 (amended): a read/parse failure of an individual content file is
skipped without affecting the processing of the remaining files, and
after the rebuild the reconstructed index is persisted immediately when
at least one entry was rebuilt, while a rebuild that recovered nothing
leaves storage untouched. -/
theorem C6_rebuild_skip_and_persist :
    (∀ (now : String) (storage : Storage) (keys1 keys2 : List String) (f : String)
      (acc : List (String × IndexEntry) × Nat),
      (readFile storage f).bind parseContent = none →
      rebuildScan now storage (keys1 ++ f :: keys2) acc =
        rebuildScan now storage (keys1 ++ keys2) acc)
    ∧ (∀ (now : String) (storage : Storage) (index0 : List (String × IndexEntry)),
      (0 < (rebuildScan now storage (listFiles storage) (index0, 0)).2 →
        readFile (rebuildIndex now storage index0).2 "index.json" =
          some (.idx (rebuildIndex now storage index0).1 now))
      ∧ ((rebuildScan now storage (listFiles storage) (index0, 0)).2 = 0 →
        (rebuildIndex now storage index0).2 = storage)) := by
  constructor
  · intro now storage keys1 keys2 f acc h
    unfold rebuildScan
    rw [List.foldl_append, List.foldl_append, List.foldl_cons,
      rebuildStep_skip now storage f _ h]
  · intro now storage index0
    constructor
    · intro hpos
      simp only [rebuildIndex, if_pos hpos]
      exact KV.get_set_self _ _ _
    · intro hzero
      have hneg : ¬ 0 < (rebuildScan now storage (listFiles storage) (index0, 0)).2 := by
        rw [hzero]
        exact Nat.lt_irrefl 0
      simp only [rebuildIndex, if_neg hneg]

/-- Witness for C6 on a storage with one good and one bad file. -/
theorem C6_rebuild_skip_and_persist_witness :
    rebuildScan "T" mixedStorage ["doc_bad.json", "doc_Good.json"] ([], 0) =
      rebuildScan "T" mixedStorage ["doc_Good.json"] ([], 0) ∧
    readFile (rebuildIndex "T" mixedStorage []).2 "index.json" =
      some (.idx (rebuildIndex "T" mixedStorage []).1 "T") := by
  constructor
  · exact C6_rebuild_skip_and_persist.1 "T" mixedStorage [] ["doc_Good.json"]
      "doc_bad.json" ([], 0) (by decide)
  · exact (C6_rebuild_skip_and_persist.2 "T" mixedStorage []).1 (by decide)

/-- The spec's wording of the edit rule — an elevated role of editor
class or admin class — written from the spec's words (not from the
source) for comparison against `getPermissions`. -/
def specElevated (oracle : Oracle) (addr : String) : Bool :=
  oracle addr "epistery::editor" || oracle addr "epistery::admin"

/-- C9 counterexample: an identity the oracle lists on
`epistery::editor` but not on `epistery::admin` is elevated in the
spec's sense, yet `getPermissions` denies it edit permission — the code
consults only `epistery::admin`. -/
theorem C9_counterexample :
    specElevated editorOnlyOracle "0xEd" = true ∧
    (getPermissions (some "0xEd") (some editorOnlyOracle)).edit = false := by
  decide

/-- C9 (amended): edit permission is granted exactly when the oracle
reports the admin role, and any identity with that permission may put
any document through the route regardless of the document's owner (the
state, and hence every entry's owner, is universally quantified and the
put path never inspects ownership). -/
theorem C9_edit_policy :
    (∀ (oracle : Oracle) (addr : String),
      (getPermissions (some addr) (some oracle)).edit = oracle addr "epistery::admin")
    ∧ (∀ (oracle : Oracle) (addr docId optPid now : String) (b : JsDoc) (st : WikiState),
      oracle addr "epistery::admin" = true → validDocId docId = true →
      ∃ d st', handlePut (some addr) (some oracle) docId optPid b now st "Home" =
        .ok (d, st')) := by
  constructor
  · intro oracle addr
    rfl
  · intro oracle addr docId optPid now b st hadm hv
    have hd := validDocId_ne_empty docId hv
    have heq : handlePut (some addr) (some oracle) docId optPid b now st "Home" =
        putM (some addr) docId optPid b now st := by
      unfold handlePut
      simp only [if_neg hd, getPermissions, hadm, if_true, hv]
    rw [heq, putM_ok addr docId optPid now b st hd]
    exact ⟨_, _, rfl⟩

/-- Witness for C9: the admin identity edits `Info`, a document owned
by `0xA`. -/
theorem C9_edit_policy_witness :
    (getPermissions (some "0xAdm") (some adminOracle)).edit =
      adminOracle "0xAdm" "epistery::admin" ∧
    ∃ d st', handlePut (some "0xAdm") (some adminOracle) "Info" ""
      ({title := "T2"} : JsDoc) "T4" demoState "Home" = .ok (d, st') := by
  exact ⟨C9_edit_policy.1 adminOracle "0xAdm",
    C9_edit_policy.2 adminOracle "0xAdm" "Info" "" "T4" ({title := "T2"} : JsDoc)
      demoState (by decide) (by decide)⟩

/-- A concrete first `put` used by the C1 witness. -/
def c1Put : Except String (JsDoc × WikiState) :=
  putM (some "0xA") "Page1" "" {title := "T", body := "B"} "T1" emptyState

def c1Res : JsDoc × WikiState :=
  match c1Put with
  | .ok r => r
  | .error _ => ({}, emptyState)

/-- C1: after a successful `put` of a valid docId, a `get` of the same
docId by an identity permitted to read it returns a document whose
title and body equal what was written — both the stored document's
fields and the caller-supplied body fields (title defaulting to the
docId when empty). -/
theorem C1_put_get (addr raddr docId optPid optPid2 now : String) (b : JsDoc)
    (st : WikiState) (d : JsDoc) (st' : WikiState)
    (hv : validDocId docId = true)
    (hput : putM (some addr) docId optPid b now st = .ok (d, st'))
    (hperm : (createIndexMeta now d).visibility = "public" ∨
      raddr = (createIndexMeta now d).owner) :
    ∃ res, getM (some raddr) docId optPid2 st' "Home" = .ok (some res) ∧
      res.title = d.title ∧ res.body = d.body ∧
      res.title = strOr b.title docId ∧ res.body = b.body := by
  have hd : docId ≠ "" := validDocId_ne_empty docId hv
  simp only [putM, if_neg hd, Except.ok.injEq, Prod.mk.injEq] at hput
  obtain ⟨hdoc, hst⟩ := hput
  subst hdoc
  subst hst
  set pd := prepDoc addr docId optPid now b (KV.get st.index docId) with hpd
  set meta := createIndexMeta now pd with hmeta
  have htitle : pd.title = strOr b.title docId := rfl
  have htne : pd.title ≠ "" := by
    rw [htitle]
    exact strOr_ne_empty _ _ hd
  have hgetidx : KV.get (KV.set st.index docId meta) docId = some meta :=
    KV.get_set_self _ _ _
  have hread : readFile
      (writeFile (writeFile st.storage (docFilename docId) (.doc (contentOf pd)))
        "index.json" (.idx (KV.set st.index docId meta) now))
      (docFilename docId) = some (.doc (contentOf pd)) := by
    unfold readFile writeFile
    rw [KV.get_set_ne _ _ _ _ (docFilename_ne_index docId)]
    exact KV.get_set_self _ _ _
  refine ⟨mergeDoc docId meta (contentOf pd), ?_, ?_, rfl, ?_, ?_⟩
  · unfold getM
    rw [if_neg hd]
    simp only [hgetidx]
    have hcond : ¬ (meta.visibility ≠ "public" ∧ raddr ≠ meta.owner) := by
      rcases hperm with h | h
      · intro hc
        exact hc.1 h
      · intro hc
        exact hc.2 h
    rw [if_neg hcond]
    unfold loadDocument
    simp only [hread]
    rfl
  · show strOr pd.title meta.title = pd.title
    exact strOr_of_ne _ _ htne
  · show strOr pd.title meta.title = strOr b.title docId
    rw [strOr_of_ne _ _ htne]
    exact htitle
  · show strOr b.body "" = b.body
    exact strOr_empty_right _

/-- Witness for C1: put `Page1` as `0xA`, get it back as `0xB`. -/
theorem C1_put_get_witness :
    ∃ res, getM (some "0xB") "Page1" "" c1Res.2 "Home" = .ok (some res) ∧
      res.title = c1Res.1.title ∧ res.body = c1Res.1.body ∧
      res.title = "T" ∧ res.body = "B" := by
  exact C1_put_get "0xA" "0xB" "Page1" "" "" "T1" {title := "T", body := "B"}
    emptyState c1Res.1 c1Res.2 (by decide) rfl (by decide)

end Wiki
